import Mathlib

/-!
Shallow embedding of the SaaS notes client (`frontend/pages/_app.js`).

The component's React state hooks become fields of `AppState`; each event
handler becomes a pure transition on `AppState`, parameterized by the outcome
of its single network request.  `localStorage` is modelled as the two string
entries the code touches (`token`, `user`).  The platform builtin `JSON.parse`
is modelled by a small executable JSON parser over `JsValue` (integers only;
`\uXXXX` escapes unsupported — the claims never exercise those inputs), and
`JSON.stringify` by a printer; `JSON.parse(null)` yields JS `null` because
`getItem` returns the null object, which stringifies to "null".
-/

namespace NotesApp

/-- A JavaScript value as produced by `JSON.parse` (numbers restricted to
integers). -/
inductive JsValue where
  | null : JsValue
  | bool : Bool → JsValue
  | num : Int → JsValue
  | str : String → JsValue
  | arr : List JsValue → JsValue
  | obj : List (String × JsValue) → JsValue

/-- JavaScript truthiness of a value, as used by `if (storedToken && storedUser)`. -/
def jsTruthy : JsValue → Bool
  | JsValue.null => false
  | JsValue.bool b => b
  | JsValue.num n => n != 0
  | JsValue.str s => s != ""
  | JsValue.arr _ => true
  | JsValue.obj _ => true

/-- JS property access `v.k` on a parsed value: defined only on objects; with
duplicate keys the last occurrence wins, as in `JSON.parse`. -/
def lookupLast : List (String × JsValue) → String → Option JsValue
  | [], _ => none
  | (k0, v) :: rest, k =>
    match lookupLast rest k with
    | some r => some r
    | none => if k0 == k then some v else none

/-- Field access `v.k`; `none` models JS `undefined`. -/
def jsGetField (v : JsValue) (k : String) : Option JsValue :=
  match v with
  | JsValue.obj fs => lookupLast fs k
  | _ => none

/-- The whitespace characters of the JSON grammar. -/
def wsChars : List Char := [' ', '\t', '\n', '\r']

/-- Drop leading JSON whitespace. -/
def trimLead (l : List Char) : List Char :=
  l.dropWhile (fun c => wsChars.contains c)

/-- Split a leading run of decimal digits from the rest. -/
def splitDigits (l : List Char) : List Char × List Char :=
  l.span (fun c => c.isDigit)

/-- Numeric value of a digit run. -/
def digitRunVal (ds : List Char) : Nat :=
  ds.foldl (fun a c => 10 * a + (c.toNat - 48)) 0

/-- The JSON escape table (`\uXXXX` unsupported by this model). -/
def escTable : List (Char × Char) :=
  [('"', '"'), ('\\', '\\'), ('/', '/'), ('n', '\n'), ('t', '\t'),
   ('r', '\r'), ('b', Char.ofNat 8), ('f', Char.ofNat 12)]

/-- Translation of an escape character via the table. -/
def escCode (c : Char) : Option Char :=
  (escTable.find? (fun p => p.1 == c)).map (fun p => p.2)

/-- Scan the remainder of a JSON string literal (opening quote already
consumed), pushing characters onto an accumulator; fuelled so that the
recursion is structural. -/
def scanString : Nat → String → List Char → Option (String × List Char)
  | 0, _, _ => none
  | fu + 1, acc, l =>
    match l with
    | [] => none
    | d :: rest =>
      if d == '"' then some (acc, rest)
      else if d == '\\' then
        match rest with
        | e :: more =>
          match escCode e with
          | some ch => scanString fu (acc.push ch) more
          | none => none
        | [] => none
      else scanString fu (acc.push d) rest

/-- Scan an integer JSON number at the current position; a fractional part or
exponent makes the model reject (integers only). -/
def scanNumber (l : List Char) : Option (JsValue × List Char) :=
  let (neg, body) := if l.headD ' ' == '-' then (true, l.tail) else (false, l)
  let (ds, rest) := splitDigits body
  if ds.isEmpty then none
  else if rest.headD 'x' == '.' || rest.headD 'x' == 'e'
      || rest.headD 'x' == 'E' then none
  else
    let v : Int := digitRunVal ds
    some (JsValue.num (if neg then -v else v), rest)

/-- Consume a literal keyword such as `null` when it prefixes the input. -/
def keyword (w : String) (l : List Char) : Option (List Char) :=
  if w.data.isPrefixOf l then some (l.drop w.data.length) else none

mutual

/-- Parse one JSON value (fuelled recursive descent). -/
def jsonVal : Nat → List Char → Option (JsValue × List Char)
  | 0, _ => none
  | fu + 1, input =>
    let l := trimLead input
    match keyword "null" l with
    | some r => some (JsValue.null, r)
    | none =>
      match keyword "true" l with
      | some r => some (JsValue.bool true, r)
      | none =>
        match keyword "false" l with
        | some r => some (JsValue.bool false, r)
        | none =>
          match l with
          | [] => none
          | c :: rest =>
            if c == '"' then
              match scanString fu "" rest with
              | some (s, r) => some (JsValue.str s, r)
              | none => none
            else if c == '[' then
              match trimLead rest with
              | ']' :: r2 => some (JsValue.arr [], r2)
              | l2 => (jsonItems fu l2).map (fun p => (JsValue.arr p.1, p.2))
            else if c == '\x7b' then
              match trimLead rest with
              | [] => none
              | c2 :: r2 =>
                if c2 == '\x7d' then some (JsValue.obj [], r2)
                else (jsonPairs fu (c2 :: r2)).map
                  (fun p => (JsValue.obj p.1, p.2))
            else scanNumber (c :: rest)

/-- Parse a nonempty comma-separated run of array elements together with the
closing bracket. -/
def jsonItems : Nat → List Char → Option (List JsValue × List Char)
  | 0, _ => none
  | fu + 1, input =>
    match jsonVal fu input with
    | none => none
    | some (v, r) =>
      match trimLead r with
      | ',' :: r2 => (jsonItems fu r2).map (fun p => (v :: p.1, p.2))
      | ']' :: r2 => some ([v], r2)
      | _ => none

/-- Parse a nonempty comma-separated run of object members together with the
closing brace. -/
def jsonPairs : Nat → List Char → Option (List (String × JsValue) × List Char)
  | 0, _ => none
  | fu + 1, input =>
    match trimLead input with
    | '"' :: rest =>
      match scanString fu "" rest with
      | none => none
      | some (k, r) =>
        match trimLead r with
        | ':' :: r2 =>
          match jsonVal fu r2 with
          | none => none
          | some (v, r3) =>
            match trimLead r3 with
            | ',' :: r4 => (jsonPairs fu r4).map (fun p => ((k, v) :: p.1, p.2))
            | c :: r4 => if c == '\x7d' then some ([(k, v)], r4) else none
            | [] => none
        | _ => none
    | _ => none

end

/-- Model of `JSON.parse` on a string: `none` models a thrown `SyntaxError`. -/
def jsParse (s : String) : Option JsValue :=
  match jsonVal (4 * s.length + 8) s.data with
  | some (v, rest) => if trimLead rest == [] then some v else none
  | none => none

/-- Escape one character for a JSON string literal. -/
def escapeChar (c : Char) : String :=
  if c == '"' then "\\\""
  else if c == '\\' then "\\\\"
  else String.mk [c]

/-- Serialize a string as a JSON string literal. -/
def stringifyStr (s : String) : String :=
  "\"" ++ String.join (s.data.map escapeChar) ++ "\""

mutual

/-- Model of `JSON.stringify` on a parsed value. -/
def jsStringify : JsValue → String
  | JsValue.null => "null"
  | JsValue.bool true => "true"
  | JsValue.bool false => "false"
  | JsValue.num n => toString n
  | JsValue.str s => stringifyStr s
  | JsValue.arr xs => "[" ++ String.intercalate "," (stringifyList xs) ++ "]"
  | JsValue.obj fs => "\x7b" ++ String.intercalate "," (stringifyFields fs) ++ "\x7d"

/-- Serialize array elements. -/
def stringifyList : List JsValue → List String
  | [] => []
  | v :: vs => jsStringify v :: stringifyList vs

/-- Serialize object members. -/
def stringifyFields : List (String × JsValue) → List String
  | [] => []
  | (k, v) :: fs => (stringifyStr k ++ ":" ++ jsStringify v) :: stringifyFields fs

end

/-! ## Data model of the component state -/

/-- A note as rendered and filtered by the client (`{ id, title, content, created_at }`). -/
structure Note where
  id : Nat
  title : String
  content : String
  created_at : String
deriving Repr, DecidableEq

/-- The note-creation form buffer (`formState`). -/
structure FormState where
  title : String
  content : String
deriving Repr, DecidableEq

/-- The login form buffer (`loginForm`). -/
structure LoginForm where
  email : String
  password : String
deriving Repr, DecidableEq

/-- The two durable `localStorage` entries the client touches; `none` means
the entry is absent (`getItem` returns null). -/
structure Storage where
  token : Option String
  user : Option String
deriving Repr, DecidableEq

/-- The React state of the `App` component plus the durable storage it reads
and writes. -/
structure AppState where
  token : Option String
  user : Option JsValue
  notes : List Note
  isNotesLoading : Bool
  error : String
  formState : FormState
  loginForm : LoginForm
  storage : Storage

/-- The initial mount state: all `useState` initializers. -/
def initState (st : Storage) : AppState :=
  { token := none, user := none, notes := [], isNotesLoading := false,
    error := "", formState := { title := "", content := "" },
    loginForm := { email := "", password := "" }, storage := st }

/-! ## Network outcomes

Each handler performs one `fetch`.  Its outcome is either a completed HTTP
response or a rejected promise (network failure).  For handlers that run the
response through `validateResponse`, a completed 2xx response carries the
parsed body and a completed non-2xx response carries the optional `message`
field of its JSON error body. -/

/-- Outcome of a `fetch` whose response is passed to `validateResponse`. -/
inductive ApiResult (α : Type) where
  | ok (data : α)
  | errResp (message : Option String)
  | netError (msg : String)

/-- Outcome of a `fetch` whose response is never inspected
(`handleDeleteNote`, `handleUpgrade`): any completed HTTP response, carrying
its `ok` status and the `message` field of its body for reference. -/
inductive RawResult where
  | completed (ok : Bool) (message : Option String)
  | netError (msg : String)

/-- The generic fallback of `validateResponse`. -/
def fallbackMessage : String := "Something went wrong"

/-- The message thrown by `validateResponse` on a non-2xx response:
`err.message || 'Something went wrong'` — JS `||` also falls back on an
empty (falsy) string. -/
def validateMessage (m : Option String) : String :=
  match m with
  | some s => if s == "" then fallbackMessage else s
  | none => fallbackMessage

/-! ## Session store operations -/

/-- `handleLogin` success payload, per the API contract
(`{token, user:{role, tenant_id}}`). -/
structure LoginResponse where
  token : String
  user : JsValue

/-- `handleLogin`: clears the error, sends credentials; on success stores
token and user in memory and in durable storage; on any failure sets the
thrown message as the error and touches nothing else. -/
def handleLogin (s : AppState) (r : ApiResult LoginResponse) : AppState :=
  let s1 := { s with error := "" }
  match r with
  | ApiResult.ok data =>
    { s1 with
      token := some data.token,
      user := some data.user,
      storage := { token := some data.token,
                   user := some (jsStringify data.user) } }
  | ApiResult.errResp m => { s1 with error := validateMessage m }
  | ApiResult.netError m => { s1 with error := m }

/-- `handleLogout`: unconditionally clears the in-memory session, the notes
list, both storage entries and the error; makes no network call. -/
def handleLogout (s : AppState) : AppState :=
  { s with
    token := none,
    user := none,
    notes := [],
    storage := { token := none, user := none },
    error := "" }

/-- `JSON.parse(localStorage.getItem('user'))`: an absent entry gives the
null object, which `JSON.parse` coerces to the string "null" and parses to
JS `null`; a present entry is parsed and may throw (`none`). -/
def parseStoredUser (entry : Option String) : Option JsValue :=
  match entry with
  | none => some JsValue.null
  | some s => jsParse s

/-- JS truthiness of `getItem('token')`: non-null and non-empty. -/
def truthyStr (t : Option String) : Bool :=
  match t with
  | some s => s != ""
  | none => false

/-- The startup `useEffect`: reads both entries, parses the user entry
*before* any presence check, and hydrates the session only when both parsed
values are truthy.  `none` models the `JSON.parse` exception escaping the
effect. -/
def restore (s : AppState) : Option AppState :=
  let storedToken := s.storage.token
  match parseStoredUser s.storage.user with
  | none => none
  | some storedUser =>
    some (if truthyStr storedToken && jsTruthy storedUser then
            { s with token := storedToken, user := some storedUser }
          else s)

/-! ## Notes view-model operations -/

/-- The two synchronous state writes at the top of `fetchNotes`, performed
before the request is issued. -/
def fetchNotesStart (s : AppState) : AppState :=
  { s with isNotesLoading := true, error := "" }

/-- The continuation of `fetchNotes` once the request settles: success
replaces the list; a thrown message becomes the error; the `finally` block
clears the loading flag in every branch. -/
def fetchNotesFinish (s : AppState) (r : ApiResult (List Note)) : AppState :=
  match r with
  | ApiResult.ok data => { s with notes := data, isNotesLoading := false }
  | ApiResult.errResp m =>
    { s with error := validateMessage m, isNotesLoading := false }
  | ApiResult.netError m => { s with error := m, isNotesLoading := false }

/-- `fetchNotes` end to end. -/
def fetchNotes (s : AppState) (r : ApiResult (List Note)) : AppState :=
  fetchNotesFinish (fetchNotesStart s) r

/-- `handleCreateNote`: clears the error, posts the form buffer; on success
prepends the returned note and resets the form; on failure sets the thrown
message.  No refetch: the tail of the list is left untouched. -/
def handleCreateNote (s : AppState) (r : ApiResult Note) : AppState :=
  let s1 := { s with error := "" }
  match r with
  | ApiResult.ok data =>
    { s1 with
      notes := data :: s1.notes,
      formState := { title := "", content := "" } }
  | ApiResult.errResp m => { s1 with error := validateMessage m }
  | ApiResult.netError m => { s1 with error := m }

/-- `handleDeleteNote`: clears the error and awaits the request; the response
status is never inspected, so every completed response — 2xx or not — falls
through to the unconditional `filter` removal; only a rejected promise
reaches the `catch`. -/
def handleDeleteNote (s : AppState) (i : Nat) (r : RawResult) : AppState :=
  let s1 := { s with error := "" }
  match r with
  | RawResult.completed _ _ =>
    { s1 with notes := s1.notes.filter (fun note => note.id != i) }
  | RawResult.netError m => { s1 with error := m }

/-- `handleUpgrade`: clears the error and awaits the request; the response
status is never inspected; every completed response triggers
`window.location.reload()` (the returned flag), only a rejected promise sets
the error. -/
def handleUpgrade (s : AppState) (slug : String) (r : RawResult) :
    AppState × Bool :=
  let s1 := { s with error := "" }
  match r with
  | RawResult.completed _ _ => (s1, true)
  | RawResult.netError m => ({ s1 with error := m }, false)

/-! ## Dashboard rendering (role gating) -/

/-- `user.role === 'Admin'` etc.: strict string comparison of a property of
the user value. -/
def roleIs (u : JsValue) (r : String) : Bool :=
  match jsGetField u "role" with
  | some (JsValue.str s) => s == r
  | _ => false

/-- The Pro-plan badge is rendered exactly for `user.role === 'Admin'`. -/
def rendersProBadge (u : JsValue) : Bool := roleIs u "Admin"

/-- The Free-plan badge is rendered exactly for `user.role === 'Member'`. -/
def rendersFreeBadge (u : JsValue) : Bool := roleIs u "Member"

/-- The Upgrade-to-Pro control is rendered exactly for
`user.role === 'Admin'`. -/
def rendersUpgradeControl (u : JsValue) : Bool := roleIs u "Admin"

/-- The invariant of §3: in-memory token and user are set together or not at
all. -/
def sessionInv (s : AppState) : Prop := s.token.isSome = s.user.isSome

/-! ## Concrete states used by witnesses and counterexamples -/

/-- The scenario note of §8. -/
def demoNote : Note :=
  { id := 7, title := "Groceries", content := "Milk, eggs",
    created_at := "2024-01-01T00:00:00Z" }

/-- A second note with a different id. -/
def demoNote2 : Note :=
  { id := 2, title := "Second", content := "note",
    created_at := "2024-01-02T00:00:00Z" }

/-- A freshly mounted state over empty storage. -/
def demoState : AppState := initState { token := none, user := none }

/-- A state holding two notes and a pending form buffer. -/
def demoNotesState : AppState :=
  { demoState with
    notes := [demoNote, demoNote2],
    formState := { title := "Groceries", content := "Milk, eggs" } }

/-- Storage whose token entry is present but empty and whose user entry is a
valid JSON object. -/
def emptyTokenStorage : Storage :=
  { token := some "",
    user := some "\x7b\"role\":\"Admin\",\"tenant_id\":\"acme\"\x7d" }

/-- Mount state over `emptyTokenStorage`. -/
def emptyTokenState : AppState := initState emptyTokenStorage

/-- Storage whose user entry exists but is not valid JSON. -/
def badJsonStorage : Storage := { token := none, user := some "\x7b" }

/-- Mount state over `badJsonStorage`. -/
def badJsonState : AppState := initState badJsonStorage

/-- Storage restorable to an Admin session. -/
def adminStorage : Storage :=
  { token := some "t1",
    user := some "\x7b\"role\":\"Admin\",\"tenant_id\":\"acme\"\x7d" }

/-- An Admin user value. -/
def adminUser : JsValue :=
  JsValue.obj [("role", JsValue.str "Admin"), ("tenant_id", JsValue.str "acme")]

/-- The same role under a different tenant. -/
def adminUserOtherTenant : JsValue :=
  JsValue.obj [("role", JsValue.str "Admin"), ("tenant_id", JsValue.str "globex")]

/-- A Member user value. -/
def memberUser : JsValue :=
  JsValue.obj [("role", JsValue.str "Member"), ("tenant_id", JsValue.str "acme")]

end NotesApp

namespace NotesApp

/-! ## Claims -/

/-- C1 (counterexample): `handleDeleteNote` never inspects the HTTP response,
so a completed non-2xx response whose JSON body carries
`message = "Forbidden"` leaves the shared error slot empty instead of holding
that message — the claim fails for deleteNote (and likewise upgradeTenant). -/
theorem C1_counterexample :
    (handleDeleteNote demoNotesState 1
      (RawResult.completed false (some "Forbidden"))).error ≠ "Forbidden" := by
  simp [handleDeleteNote, demoNotesState, demoState, initState]

/-- C1 (amended): only `fetchNotes` and `handleCreateNote` route the response
through `validateResponse`, so only they surface the `message` field of a
non-2xx body (verbatim when present and non-empty, the generic fallback when
absent or empty); `handleDeleteNote` and `handleUpgrade` leave the error slot
empty on every completed response, setting it only on network failure. -/
theorem C1_amended_error_surfacing (s : AppState) (i : Nat) (slug : String)
    (ok : Bool) (m : Option String) :
    (fetchNotes s (ApiResult.errResp m)).error = validateMessage m ∧
    (handleCreateNote s (ApiResult.errResp m)).error = validateMessage m ∧
    (handleDeleteNote s i (RawResult.completed ok m)).error = "" ∧
    (handleUpgrade s slug (RawResult.completed ok m)).1.error = "" ∧
    (∀ t : String, t ≠ "" → validateMessage (some t) = t) ∧
    validateMessage none = fallbackMessage := by
  refine ⟨rfl, rfl, rfl, rfl, ?_, rfl⟩
  intro t ht
  simp [validateMessage, ht]

/-- C1 (witness for the amended claim at a concrete input). -/
theorem C1_amended_witness :
    (fetchNotes demoState (ApiResult.errResp (some "Unauthorized"))).error =
      validateMessage (some "Unauthorized") ∧
    validateMessage (some "Unauthorized") = "Unauthorized" := by
  have h := C1_amended_error_surfacing demoState 0 "acme" false
    (some "Unauthorized")
  exact ⟨h.1, h.2.2.2.2.1 "Unauthorized" (by decide)⟩

/-- C2: whenever the delete request completes with any HTTP response, 2xx or
not, every note with the requested id is removed from the in-memory list
(an unconditional filter); when the request cannot complete at all, the list
is unchanged and the error slot holds the failure message. -/
theorem C2_delete_unconditional_removal (s : AppState) (i : Nat) (ok : Bool)
    (m : Option String) (msg : String) :
    ((handleDeleteNote s i (RawResult.completed ok m)).notes =
        s.notes.filter (fun note => note.id != i) ∧
      ∀ n, n ∈ (handleDeleteNote s i (RawResult.completed ok m)).notes →
        n.id ≠ i) ∧
    ((handleDeleteNote s i (RawResult.netError msg)).notes = s.notes ∧
      (handleDeleteNote s i (RawResult.netError msg)).error = msg) := by
  refine ⟨⟨rfl, ?_⟩, rfl, rfl⟩
  intro n hn
  have hmem : n ∈ s.notes.filter (fun note => note.id != i) := hn
  simpa using (List.mem_filter.mp hmem).2

/-- C2 (witness at a concrete input): deleting id 7 from a two-note list
removes exactly the note with id 7, and the survivor's id differs from 7. -/
theorem C2_witness :
    (handleDeleteNote demoNotesState 7
        (RawResult.completed false (some "err"))).notes = [demoNote2] ∧
    demoNote2.id ≠ 7 := by
  have h := C2_delete_unconditional_removal demoNotesState 7 false
    (some "err") "x"
  refine ⟨h.1.1.trans (by decide), ?_⟩
  exact h.1.2 demoNote2 (by rw [h.1.1]; decide)

/-- C3: a failing `fetchNotes` (non-2xx or network error) sets the error slot
to the failure message and leaves the previous note list unchanged; the
loading flag is raised before the request is issued and is false in the final
state of every outcome. -/
theorem C3_fetch_failure_and_loading (s : AppState) (m : Option String)
    (msg : String) (data : List Note) :
    (fetchNotesStart s).isNotesLoading = true ∧
    ((fetchNotes s (ApiResult.errResp m)).notes = s.notes ∧
      (fetchNotes s (ApiResult.errResp m)).error = validateMessage m ∧
      (fetchNotes s (ApiResult.errResp m)).isNotesLoading = false) ∧
    ((fetchNotes s (ApiResult.netError msg)).notes = s.notes ∧
      (fetchNotes s (ApiResult.netError msg)).error = msg ∧
      (fetchNotes s (ApiResult.netError msg)).isNotesLoading = false) ∧
    ((fetchNotes s (ApiResult.ok data)).notes = data ∧
      (fetchNotes s (ApiResult.ok data)).isNotesLoading = false) := by
  exact ⟨rfl, ⟨rfl, rfl, rfl⟩, ⟨rfl, rfl, rfl⟩, rfl, rfl⟩

/-- C4: every session-touching operation preserves the invariant that the
in-memory token and user are both set or both unset; the mount state
satisfies it, and restore cannot break it in either branch. -/
theorem C4_session_invariant (s : AppState) (h : sessionInv s) :
    (∀ r, sessionInv (handleLogin s r)) ∧
    sessionInv (handleLogout s) ∧
    (∀ s2, restore s = some s2 → sessionInv s2) ∧
    (∀ st, sessionInv (initState st)) := by
  refine ⟨?_, rfl, ?_, fun st => rfl⟩
  · intro r
    cases r with
    | ok data => rfl
    | errResp m => exact h
    | netError m => exact h
  · intro s2 hs2
    unfold restore at hs2
    cases hp : parseStoredUser s.storage.user with
    | none => rw [hp] at hs2; exact absurd hs2 (by simp)
    | some v =>
      rw [hp] at hs2
      simp only [Option.some.injEq] at hs2
      by_cases hc : (truthyStr s.storage.token && jsTruthy v) = true
      · rw [if_pos hc] at hs2
        subst hs2
        have ht : truthyStr s.storage.token = true := by
          exact (Bool.and_eq_true _ _).mp hc |>.1
        unfold sessionInv
        cases hst : s.storage.token with
        | none => rw [hst] at ht; simp [truthyStr] at ht
        | some t => simp [hst]
      · rw [if_neg hc] at hs2
        subst hs2
        exact h

/-- C4 (witness at a concrete input): the invariant holds after logging out
of the mount state. -/
theorem C4_witness : sessionInv (handleLogout demoState) :=
  (C4_session_invariant demoState rfl).2.1

/-- C5: a successful `handleCreateNote` prepends the server-returned note as
the new first element with the tail exactly the old list (no refetch), resets
the form buffer, and — given the API contract that the returned note echoes
the submitted fields — the first element carries the submitted title and
content; on failure the list and form buffer are unchanged and the error is
surfaced. -/
theorem C5_create_success_prepends (s : AppState) (data : Note)
    (h1 : data.title = s.formState.title)
    (h2 : data.content = s.formState.content) :
    ((handleCreateNote s (ApiResult.ok data)).notes = data :: s.notes ∧
      (handleCreateNote s (ApiResult.ok data)).notes.head? = some data ∧
      (handleCreateNote s (ApiResult.ok data)).formState =
        { title := "", content := "" } ∧
      ∃ n, (handleCreateNote s (ApiResult.ok data)).notes.head? = some n ∧
        n.title = s.formState.title ∧ n.content = s.formState.content) ∧
    (∀ m, (handleCreateNote s (ApiResult.errResp m)).notes = s.notes ∧
      (handleCreateNote s (ApiResult.errResp m)).formState = s.formState ∧
      (handleCreateNote s (ApiResult.errResp m)).error = validateMessage m) ∧
    (∀ msg, (handleCreateNote s (ApiResult.netError msg)).notes = s.notes ∧
      (handleCreateNote s (ApiResult.netError msg)).formState = s.formState ∧
      (handleCreateNote s (ApiResult.netError msg)).error = msg) := by
  refine ⟨⟨rfl, rfl, rfl, ⟨data, rfl, h1, h2⟩⟩,
    fun m => ⟨rfl, rfl, rfl⟩, fun msg => ⟨rfl, rfl, rfl⟩⟩

/-- C5 (witness at a concrete input): creating the §8 scenario note against a
buffer holding the same title and content prepends it as the head. -/
theorem C5_witness :
    (handleCreateNote demoNotesState (ApiResult.ok demoNote)).notes =
      demoNote :: demoNotesState.notes ∧
    (handleCreateNote demoNotesState (ApiResult.ok demoNote)).notes.head? =
      some demoNote :=
  have h := C5_create_success_prepends demoNotesState demoNote
    (by decide) (by decide)
  ⟨h.1.1, h.1.2.1⟩

/-- C6: logout unconditionally clears the in-memory token and user, empties
the notes list, removes both durable-storage entries, and clears the error;
a subsequent restore completes without throwing and returns the same
unauthenticated state. -/
theorem C6_logout_then_restore_empty (s : AppState) :
    (handleLogout s).token = none ∧
    (handleLogout s).user = none ∧
    (handleLogout s).notes = [] ∧
    (handleLogout s).storage.token = none ∧
    (handleLogout s).storage.user = none ∧
    (handleLogout s).error = "" ∧
    restore (handleLogout s) = some (handleLogout s) := by
  exact ⟨rfl, rfl, rfl, rfl, rfl, rfl, rfl⟩

/-- C7: a failing login attempt — rejected credentials (non-2xx, surfacing
the server-provided message, verbatim when non-empty) or network error
(surfacing the failure message) — leaves the in-memory token and user and
both durable-storage entries exactly as they were. -/
theorem C7_login_failure_preserves_session (s : AppState) (m : Option String)
    (msg : String) :
    ((handleLogin s (ApiResult.errResp m)).token = s.token ∧
      (handleLogin s (ApiResult.errResp m)).user = s.user ∧
      (handleLogin s (ApiResult.errResp m)).storage = s.storage ∧
      (handleLogin s (ApiResult.errResp m)).error = validateMessage m) ∧
    ((handleLogin s (ApiResult.netError msg)).token = s.token ∧
      (handleLogin s (ApiResult.netError msg)).user = s.user ∧
      (handleLogin s (ApiResult.netError msg)).storage = s.storage ∧
      (handleLogin s (ApiResult.netError msg)).error = msg) ∧
    (∀ t : String, t ≠ "" → validateMessage (some t) = t) := by
  refine ⟨⟨rfl, rfl, rfl, rfl⟩, ⟨rfl, rfl, rfl, rfl⟩, ?_⟩
  intro t ht
  simp [validateMessage, ht]

/-- C7 (witness at a concrete input): a rejected login with message
"Invalid credentials" leaves the mount session untouched and surfaces the
message verbatim. -/
theorem C7_witness :
    (handleLogin demoState
        (ApiResult.errResp (some "Invalid credentials"))).token =
      demoState.token ∧
    (handleLogin demoState
        (ApiResult.errResp (some "Invalid credentials"))).error =
      validateMessage (some "Invalid credentials") ∧
    validateMessage (some "Invalid credentials") = "Invalid credentials" :=
  have h := C7_login_failure_preserves_session demoState
    (some "Invalid credentials") "x"
  ⟨h.1.1, h.1.2.2.2, h.2.2 "Invalid credentials" (by decide)⟩

/-- C8 (counterexample): a storage in which both entries are present — the
token entry being the empty string — is not hydrated: restore completes and
leaves the state unauthenticated, refuting hydration exactly on presence. -/
theorem C8_counterexample :
    emptyTokenState.storage.token.isSome = true ∧
    emptyTokenState.storage.user.isSome = true ∧
    restore emptyTokenState = some emptyTokenState ∧
    emptyTokenState.token = none ∧
    emptyTokenState.user = none := by
  exact ⟨rfl, rfl, rfl, rfl, rfl⟩

/-- C8 (amended): at startup, restore hydrates the session exactly when the
token entry is present and non-empty (JS-truthy) and the user entry parses
as JSON to a truthy value; when the user entry is present but not valid
JSON, restore throws; in every remaining case it returns the state
unchanged, hence unauthenticated. -/
theorem C8_amended_restore (s : AppState) (h0 : s.token = none)
    (h1 : s.user = none) :
    (parseStoredUser s.storage.user = none → restore s = none) ∧
    (∀ v, parseStoredUser s.storage.user = some v →
      ((truthyStr s.storage.token && jsTruthy v) = true →
        restore s =
          some { s with token := s.storage.token, user := some v }) ∧
      ((truthyStr s.storage.token && jsTruthy v) = false →
        restore s = some s ∧
        (restore s).map (fun t => (t.token, t.user)) =
          some (none, none))) := by
  refine ⟨?_, ?_⟩
  · intro hp
    unfold restore
    rw [hp]
  · intro v hp
    refine ⟨?_, ?_⟩
    · intro hc
      unfold restore
      rw [hp]
      simp [hc]
    · intro hc
      have hr : restore s = some s := by
        unfold restore
        rw [hp]
        simp [hc]
      exact ⟨hr, by rw [hr]; simp [h0, h1]⟩

/-- C8 (witness for the amended claim): a non-empty token with a valid truthy
user JSON hydrates the session with that token. -/
theorem C8_amended_witness :
    restore (initState adminStorage) =
      some { initState adminStorage with
             token := (initState adminStorage).storage.token,
             user := some adminUser } :=
  have h := C8_amended_restore (initState adminStorage) rfl rfl
  (h.2 adminUser (by rfl)).1 (by rfl)

/-- C9: restore parses the stored user entry as JSON before any presence
check: with a user entry present but not valid JSON (here the single
character `\x7b`), restore throws — modelled as `none` — instead of leaving
the application unauthenticated, even though the token entry is absent. -/
theorem C9_restore_throws_on_bad_json :
    badJsonState.storage.user.isSome = true ∧
    badJsonState.storage.token = none ∧
    jsParse "\x7b" = none ∧
    restore badJsonState = none := by
  exact ⟨rfl, rfl, rfl, rfl⟩

/-- C10: the plan badge and the upgrade control are functions of the
session's role field alone — two users with the same role render
identically, regardless of tenant_id or any other field; an Admin role
renders the Pro badge and the upgrade control, a Member role renders the
Free badge and no upgrade control, and any non-Admin role never renders the
upgrade control. -/
theorem C10_role_gates_rendering (u u2 : JsValue)
    (h : jsGetField u "role" = jsGetField u2 "role") :
    (rendersProBadge u = rendersProBadge u2 ∧
      rendersFreeBadge u = rendersFreeBadge u2 ∧
      rendersUpgradeControl u = rendersUpgradeControl u2) ∧
    (roleIs u "Admin" = true →
      rendersProBadge u = true ∧ rendersUpgradeControl u = true ∧
      rendersFreeBadge u = false) ∧
    (roleIs u "Member" = true →
      rendersFreeBadge u = true ∧ rendersUpgradeControl u = false ∧
      rendersProBadge u = false) ∧
    (roleIs u "Admin" = false → rendersUpgradeControl u = false) := by
  have excl : ∀ (w : JsValue) (a b : String), a ≠ b →
      roleIs w a = true → roleIs w b = false := by
    intro w a b hab ha
    unfold roleIs at ha ⊢
    cases hg : jsGetField w "role" with
    | none => rw [hg] at ha
    | some v =>
      rw [hg] at ha
      cases v with
      | str t =>
        have ht : t = a := by simpa using ha
        subst ht
        simpa using hab
      | null => exact absurd ha (by simp)
      | bool b0 => exact absurd ha (by simp)
      | num n => exact absurd ha (by simp)
      | arr xs => exact absurd ha (by simp)
      | obj fs => exact absurd ha (by simp)
  refine ⟨⟨?_, ?_, ?_⟩, ?_, ?_, ?_⟩
  · simp [rendersProBadge, roleIs, h]
  · simp [rendersFreeBadge, roleIs, h]
  · simp [rendersUpgradeControl, roleIs, h]
  · intro ha
    exact ⟨ha, ha, excl u "Admin" "Member" (by decide) ha⟩
  · intro hm
    exact ⟨hm, excl u "Member" "Admin" (by decide) hm,
      excl u "Member" "Admin" (by decide) hm⟩
  · intro ha
    exact ha

/-- C10 (witness at concrete inputs): two Admin users under different tenants
render the same controls, and the Admin user renders the upgrade control and
the Pro badge. -/
theorem C10_witness :
    rendersUpgradeControl adminUser = rendersUpgradeControl adminUserOtherTenant ∧
    rendersProBadge adminUser = true ∧
    rendersUpgradeControl adminUser = true :=
  have h := C10_role_gates_rendering adminUser adminUserOtherTenant rfl
  have h2 := h.2.1 rfl
  ⟨h.1.2.2, h2.1, h2.2.1⟩

end NotesApp
